import Mathlib

/-!
Verification of the strategy-evaluation core of a candle-pattern notifier.

The embedding follows the current strategy modules (`engulfing_strategy.py`,
`sr_breakout_strategy.py`, `strategy_runner.py`, `backtester.py`).  Prices are
modelled as rationals (the Python code converts the broker's decimal strings
with `float(...)`; the comparisons and arithmetic used by the detectors are
exact on the decimal inputs, so `ℚ` is a faithful carrier).  A candle dict
`{'time': t, 'mid': {'o': o, 'h': h, 'l': l, 'c': c}, ...}` becomes a flat
structure; only `time`, `mid.o` and `mid.c` are ever read by the detectors,
but `h` and `l` are kept in the model so that independence from them is a
statable property.
-/

structure Candle where
  time : String
  o : ℚ
  h : ℚ
  l : ℚ
  c : ℚ
deriving DecidableEq, Repr

/-- Default candle used to give total meaning to list indexing that the
Python code only performs behind a length guard. -/
def defaultCandle : Candle := ⟨"", 0, 0, 0, 0⟩

instance : Inhabited Candle := ⟨defaultCandle⟩

/-- Candle direction, as classified by `_get_candle_direction`. -/
inductive Direction where
  | bull
  | bear
  | doji
deriving DecidableEq, Repr

/-- `str.upper()` applied to the direction name, as used in the match detail. -/
def Direction.upper : Direction → String
  | .bull => "BULL"
  | .bear => "BEAR"
  | .doji => "DOJI"

/-- `EngulfingStrategy._get_candle_direction`: bull if close>open, bear if
close<open, doji otherwise. -/
def getCandleDirection (cd : Candle) : Direction :=
  if cd.c > cd.o then .bull
  else if cd.c < cd.o then .bear
  else .doji

/-- Executable absolute value on `ℚ` (Python's `abs`); kept as an `if` so
that concrete runs reduce inside the kernel. -/
def ratAbs (q : ℚ) : ℚ := if q < 0 then -q else q

theorem ratAbs_eq_abs (q : ℚ) : ratAbs q = |q| := by
  unfold ratAbs
  split
  · exact (abs_of_neg (by assumption)).symm
  · exact (abs_of_nonneg (le_of_not_lt (by assumption))).symm

/-- `EngulfingStrategy._get_body_size`: `abs(c - o)`. -/
def getBodySize (cd : Candle) : ℚ := ratAbs (cd.c - cd.o)

/-- `EngulfingStrategy.check` (engulfing_strategy.py).  The Python code
guards `len(candles) < 4` and then reads `candles[-1] .. candles[-4]`;
this is modelled by matching on the reversed list, whose first four
elements are exactly those negative indices. -/
def EngulfingStrategy.check (candles : List Candle) : Bool × String :=
  match candles.reverse with
  | candle1 :: candle2 :: candle3 :: candle4 :: _ =>
    let dir2 := getCandleDirection candle2
    let dir3 := getCandleDirection candle3
    let dir4 := getCandleDirection candle4
    if dir2 = .doji ∨ dir3 = .doji ∨ dir4 = .doji then
      (false, "No Engulfing Pattern (Doji in 2-4)")
    else if ¬(dir2 = dir3 ∧ dir3 = dir4) then
      (false, "No Engulfing Pattern (Candles 2-4 direction mismatch)")
    else
      let dir1 := getCandleDirection candle1
      if dir1 = .doji then
        (false, "No Engulfing Pattern (Candle 1 Doji)")
      else if dir1 = dir2 then
        (false, "No Engulfing Pattern (Candle 1 same direction as Candle 2)")
      else
        let body1 := getBodySize candle1
        let body2 := getBodySize candle2
        if body1 ≤ body2 then
          (false, "No Engulfing Pattern (Candle 1 body not greater than Candle 2 body)")
        else
          let d1s := dir1.upper
          (true, s!"Engulfing Pattern Found ({d1s} Signal)")
  | _ =>
    let n := candles.length
    (false, s!"Not enough completed candles ({n}) for check.")

/-- `EngulfingStrategy.min_required_completed_candles`. -/
def EngulfingStrategy.minRequiredCompletedCandles : ℕ := 4

/-- `EngulfingStrategy.required_candles`. -/
def EngulfingStrategy.requiredCandles : ℕ := 6

example :
    EngulfingStrategy.check
      [⟨"t1", 1, 0, 0, 2⟩, ⟨"t2", 2, 0, 0, 3⟩, ⟨"t3", 3, 0, 0, 4⟩,
       ⟨"t4", 5, 0, 0, 3⟩] =
    (true, "Engulfing Pattern Found (BEAR Signal)") := by with_unfolding_all rfl

example :
    EngulfingStrategy.check [⟨"t1", 1, 0, 0, 2⟩] =
    (false, "Not enough completed candles (1) for check.") := by with_unfolding_all rfl

/-- `toString` on a `String` is the identity; used to normalise interpolated
detail strings. -/
theorem toString_eq_self (s : String) : toString s = s := rfl

/-- The five negative diagnostics the engulfing check can return once enough
candles are present. -/
def engulfingFailureDiagnostics : List String :=
  ["No Engulfing Pattern (Doji in 2-4)",
   "No Engulfing Pattern (Candles 2-4 direction mismatch)",
   "No Engulfing Pattern (Candle 1 Doji)",
   "No Engulfing Pattern (Candle 1 same direction as Candle 2)",
   "No Engulfing Pattern (Candle 1 body not greater than Candle 2 body)"]

/-- **C1.** With at least 4 candles (equivalently, a reversed list starting
`c1 :: c2 :: c3 :: c4`), the engulfing check matches iff candles 2–4 share one
non-doji direction, candle 1 has the opposite non-doji direction, and candle
1's body strictly exceeds candle 2's; on a match the detail names candle 1's
direction, and every failure returns one of five pairwise-distinct
diagnostics. -/
theorem engulfing_check_characterization (candles : List Candle)
    (c1 c2 c3 c4 : Candle) (rest : List Candle)
    (hrev : candles.reverse = c1 :: c2 :: c3 :: c4 :: rest) :
    ((EngulfingStrategy.check candles).1 = true ↔
      (getCandleDirection c2 ≠ .doji ∧
       getCandleDirection c3 = getCandleDirection c2 ∧
       getCandleDirection c4 = getCandleDirection c2 ∧
       getCandleDirection c1 ≠ .doji ∧
       getCandleDirection c1 ≠ getCandleDirection c2 ∧
       getBodySize c2 < getBodySize c1)) ∧
    ((EngulfingStrategy.check candles).1 = true →
      (EngulfingStrategy.check candles).2 =
        "Engulfing Pattern Found (" ++ (getCandleDirection c1).upper ++ " Signal)") ∧
    ((EngulfingStrategy.check candles).1 = false →
      (EngulfingStrategy.check candles).2 ∈ engulfingFailureDiagnostics) ∧
    engulfingFailureDiagnostics.Nodup := by
  have hck : EngulfingStrategy.check candles =
      (let dir2 := getCandleDirection c2
       let dir3 := getCandleDirection c3
       let dir4 := getCandleDirection c4
       if dir2 = .doji ∨ dir3 = .doji ∨ dir4 = .doji then
         (false, "No Engulfing Pattern (Doji in 2-4)")
       else if ¬(dir2 = dir3 ∧ dir3 = dir4) then
         (false, "No Engulfing Pattern (Candles 2-4 direction mismatch)")
       else
         let dir1 := getCandleDirection c1
         if dir1 = .doji then
           (false, "No Engulfing Pattern (Candle 1 Doji)")
         else if dir1 = dir2 then
           (false, "No Engulfing Pattern (Candle 1 same direction as Candle 2)")
         else
           let body1 := getBodySize c1
           let body2 := getBodySize c2
           if body1 ≤ body2 then
             (false, "No Engulfing Pattern (Candle 1 body not greater than Candle 2 body)")
           else
             let d1s := dir1.upper
             (true, s!"Engulfing Pattern Found ({d1s} Signal)")) := by
    unfold EngulfingStrategy.check
    rw [hrev]
  rw [hck]
  refine ⟨?_, ?_, ?_, by decide⟩
  · cases h1 : getCandleDirection c1 <;> cases h2 : getCandleDirection c2 <;>
      cases h3 : getCandleDirection c3 <;> cases h4 : getCandleDirection c4 <;>
      simp_all <;> split <;> simp_all [not_le, not_lt]
  · cases h1 : getCandleDirection c1 <;> cases h2 : getCandleDirection c2 <;>
      cases h3 : getCandleDirection c3 <;> cases h4 : getCandleDirection c4 <;>
      simp_all [toString_eq_self] <;> split <;> simp_all [toString_eq_self]
  · cases h1 : getCandleDirection c1 <;> cases h2 : getCandleDirection c2 <;>
      cases h3 : getCandleDirection c3 <;> cases h4 : getCandleDirection c4 <;>
      simp_all [engulfingFailureDiagnostics] <;> split <;> simp_all

/-- `PIP_SIZE` from base_strategy.py (the float literal `0.01`, taken at its
exact decimal value). -/
def PIP_SIZE : ℚ := 1 / 100

/-- Python's `min` over a list of rationals: a left fold of binary `min`
over the elements, `none` on the empty list (the code writes
`min(levels) if levels else None`). -/
def pythonMin (l : List ℚ) : Option ℚ :=
  match l with
  | [] => none
  | x :: xs => some (xs.foldl min x)

theorem foldl_min_mem (xs : List ℚ) (a : ℚ) :
    xs.foldl min a = a ∨ xs.foldl min a ∈ xs := by
  induction xs generalizing a with
  | nil => exact Or.inl rfl
  | cons b bs ih =>
    have hfold : (b :: bs).foldl min a = bs.foldl min (min a b) := rfl
    rcases ih (min a b) with h | h
    · rcases min_choice a b with hm | hm
      · exact Or.inl (by rw [hfold, h, hm])
      · exact Or.inr (by rw [hfold, h, hm]; exact List.mem_cons_self b bs)
    · exact Or.inr (by rw [hfold]; exact List.mem_cons_of_mem b h)

theorem foldl_min_le (xs : List ℚ) (a : ℚ) :
    xs.foldl min a ≤ a ∧ ∀ y ∈ xs, xs.foldl min a ≤ y := by
  induction xs generalizing a with
  | nil => exact ⟨le_refl a, by intro y hy; cases hy⟩
  | cons b bs ih =>
    have hfold : (b :: bs).foldl min a = bs.foldl min (min a b) := rfl
    obtain ⟨h1, h2⟩ := ih (min a b)
    refine ⟨by rw [hfold]; exact h1.trans (min_le_left a b), ?_⟩
    intro y hy
    rcases List.mem_cons.mp hy with rfl | hy
    · rw [hfold]; exact h1.trans (min_le_right a y)
    · rw [hfold]; exact h2 y hy

/-- `pythonMin` returns exactly the least element of a nonempty list. -/
theorem pythonMin_eq_some_iff (l : List ℚ) (x : ℚ) :
    pythonMin l = some x ↔ x ∈ l ∧ ∀ y ∈ l, x ≤ y := by
  cases l with
  | nil => simp [pythonMin]
  | cons a xs =>
    simp only [pythonMin, Option.some.injEq]
    constructor
    · rintro rfl
      obtain ⟨h1, h2⟩ := foldl_min_le xs a
      refine ⟨?_, ?_⟩
      · rcases foldl_min_mem xs a with h | h
        · rw [h]; exact List.mem_cons_self a xs
        · exact List.mem_cons_of_mem a h
      · intro y hy
        rcases List.mem_cons.mp hy with rfl | hy
        · exact h1
        · exact h2 y hy
    · rintro ⟨hmem, hlb⟩
      obtain ⟨h1, h2⟩ := foldl_min_le xs a
      refine le_antisymm ?_ ?_
      · rcases List.mem_cons.mp hmem with rfl | hmem
        · exact h1
        · exact h2 x hmem
      · rcases foldl_min_mem xs a with h | h
        · rw [h]; exact hlb a (List.mem_cons_self a xs)
        · exact hlb _ (List.mem_cons_of_mem a h)

theorem pythonMin_eq_none_iff (l : List ℚ) : pythonMin l = none ↔ l = [] := by
  cases l <;> simp [pythonMin]

/-- Pads the decimal representation of `n` to five digits with leading
zeroes. -/
def padTo5 (n : ℕ) : String :=
  let s := toString n
  String.mk (List.replicate (5 - s.length) '0') ++ s

/-- Renders a rational with five decimal places, modelling Python's
`f"{x:.5f}"` applied to the exact value (rounding half away from zero;
Python formats the underlying binary double, which agrees on the inputs
exercised here — exact binary rounding is outside this embedding). -/
def formatFixed5 (q : ℚ) : String :=
  let scaled := (⌊ratAbs q * 100000 + 1 / 2⌋).toNat
  (if q < 0 then "-" else "") ++ toString (scaled / 100000) ++ "." ++ padTo5 (scaled % 100000)

/-- `SRBreakout.min_required_completed_candles`. -/
def SRBreakout.minRequiredCompletedCandles : ℕ := 51

/-- `SRBreakout.required_candles`. -/
def SRBreakout.requiredCandles : ℕ := 52

/-- The S/R detection loop's support candidates: for each consecutive pair
`(c_prev, c_curr)` of the historical candles (`for i in
range(len(historical_candles) - 1)`), a bear `c_prev` followed by a bull
`c_curr` contributes `c_prev`'s close. -/
def supportLevels (hist : List Candle) : List ℚ :=
  (hist.zip hist.tail).filterMap fun pc =>
    if pc.1.c < pc.1.o ∧ pc.2.c > pc.2.o then some pc.1.c else none

/-- Resistance candidates: a bull `c_prev` followed by a bear `c_curr`
contributes `c_prev`'s close. -/
def resistanceLevels (hist : List Candle) : List ℚ :=
  (hist.zip hist.tail).filterMap fun pc =>
    if pc.1.c > pc.1.o ∧ pc.2.c < pc.2.o then some pc.1.c else none

/-- The support arm of the breakout check (`best_support is not None and
last_close < best_support`, then the 1-pip buffer); both failing tests fall
through to the same negative result, so they are written as one
conjunction. -/
def srSupportTest (best_support : Option ℚ) (last_close : ℚ) : Bool × String :=
  match best_support with
  | some s =>
    if last_close < s ∧ last_close < s - PIP_SIZE then
      (true, s!"SUPPORT Breakout detected at S={formatFixed5 s} (Close={formatFixed5 last_close}).")
    else (false, "No S/R Breakout found.")
  | none => (false, "No S/R Breakout found.")

/-- The resistance arm, tried first; on failure it falls through to the
support arm, exactly as the sequential `if` statements do. -/
def srBreakoutTest (best_resistance best_support : Option ℚ) (last_close : ℚ) : Bool × String :=
  match best_resistance with
  | some r =>
    if last_close > r ∧ last_close > r + PIP_SIZE then
      (true, s!"RESISTANCE Breakout detected at R={formatFixed5 r} (Close={formatFixed5 last_close}).")
    else srSupportTest best_support last_close
  | none => srSupportTest best_support last_close

/-- `SRBreakout.check` (sr_breakout_strategy.py): length guard, level
collection over `candles[:-1]`, consolidation with `min` on both sides, and
the sequential breakout test on `candles[-1]`'s close. -/
def SRBreakout.check (candles : List Candle) : Bool × String :=
  if candles.length < SRBreakout.minRequiredCompletedCandles then
    (false, s!"Not enough candles ({candles.length}) for check.")
  else
    let last_close := (candles.getLastD defaultCandle).c
    let historical_candles := candles.dropLast
    let best_support := pythonMin (supportLevels historical_candles)
    let best_resistance := pythonMin (resistanceLevels historical_candles)
    srBreakoutTest best_resistance best_support last_close

theorem pipPos : (0 : ℚ) < PIP_SIZE := by norm_num [PIP_SIZE]

/-- The sequential breakout test matches exactly when the close clears the
best resistance by more than a pip, or undercuts the best support by more
than a pip. -/
theorem srBreakoutTest_matched_iff (R S : Option ℚ) (lc : ℚ) :
    (srBreakoutTest R S lc).1 = true ↔
      (∃ r, R = some r ∧ r + PIP_SIZE < lc) ∨ (∃ s, S = some s ∧ lc < s - PIP_SIZE) := by
  have hp := pipPos
  have hsup : ∀ T : Option ℚ, (srSupportTest T lc).1 = true ↔
      (∃ s, T = some s ∧ lc < s - PIP_SIZE) := by
    intro T
    rcases T with _ | s
    · simp [srSupportTest]
    · simp only [srSupportTest]
      split_ifs with h1
      · simp only [Option.some.injEq]
        constructor
        · intro _
          exact ⟨s, rfl, h1.2⟩
        · intro _
          trivial
      · simp only [Option.some.injEq]
        constructor
        · intro hfalse
          simp at hfalse
        · rintro ⟨s', rfl, hs'⟩
          exact absurd ⟨by linarith, hs'⟩ h1
  rcases R with _ | r
  · simp only [srBreakoutTest]
    rw [hsup]
    simp
  · simp only [srBreakoutTest]
    split_ifs with h1
    · simp only []
      constructor
      · intro _
        exact Or.inl ⟨r, rfl, h1.2⟩
      · intro _
        trivial
    · rw [hsup]
      constructor
      · intro hs
        exact Or.inr hs
      · rintro (⟨r', hr', hlt⟩ | hs)
        · injection hr' with hr'
          subst hr'
          exact absurd ⟨by linarith, hlt⟩ h1
        · exact hs

/-- When the resistance condition holds, the resistance branch is the one
reported (it is checked first). -/
theorem srBreakoutTest_resistance_detail (S : Option ℚ) (lc r : ℚ)
    (hr : r + PIP_SIZE < lc) :
    srBreakoutTest (some r) S lc =
      (true, s!"RESISTANCE Breakout detected at R={formatFixed5 r} (Close={formatFixed5 lc}).") := by
  have hp := pipPos
  simp only [srBreakoutTest]
  rw [if_pos ⟨by linarith, hr⟩]

/-- When neither breakout condition holds the result is the negative
"no breakout" detail. -/
theorem srBreakoutTest_no_match (R S : Option ℚ) (lc : ℚ)
    (hR : ∀ r, R = some r → ¬ r + PIP_SIZE < lc)
    (hS : ∀ s, S = some s → ¬ lc < s - PIP_SIZE) :
    srBreakoutTest R S lc = (false, "No S/R Breakout found.") := by
  have hsup : srSupportTest S lc = (false, "No S/R Breakout found.") := by
    rcases S with _ | s
    · rfl
    · simp only [srSupportTest]
      rw [if_neg]
      rintro ⟨-, h2⟩
      exact hS s rfl h2
  rcases R with _ | r
  · simpa [srBreakoutTest] using hsup
  · simp only [srBreakoutTest]
    rw [if_neg, hsup]
    rintro ⟨-, h2⟩
    exact hR r rfl h2

/-- The SR check on a sufficiently long list is the breakout test on the
consolidated levels of `candles[:-1]` and the final close. -/
theorem SRBreakout.check_eq (candles : List Candle)
    (h : SRBreakout.minRequiredCompletedCandles ≤ candles.length) :
    SRBreakout.check candles =
      srBreakoutTest (pythonMin (resistanceLevels candles.dropLast))
        (pythonMin (supportLevels candles.dropLast))
        (candles.getLastD defaultCandle).c := by
  unfold SRBreakout.check
  rw [if_neg (by omega)]

/-- **C2.** With at least the minimum 51 candles, the SR check matches iff
the final close clears the best (minimum) resistance level by more than one
pip, or undercuts the best (minimum) support level by more than one pip;
whenever the resistance condition holds the resistance branch is the one
reported (it is tested first), and when neither condition holds the result
is `(false, "No S/R Breakout found.")`. -/
theorem sr_check_characterization (candles : List Candle)
    (h : SRBreakout.minRequiredCompletedCandles ≤ candles.length) :
    ((SRBreakout.check candles).1 = true ↔
      (∃ r, pythonMin (resistanceLevels candles.dropLast) = some r ∧
        r + PIP_SIZE < (candles.getLastD defaultCandle).c) ∨
      (∃ s, pythonMin (supportLevels candles.dropLast) = some s ∧
        (candles.getLastD defaultCandle).c < s - PIP_SIZE)) ∧
    (∀ r, pythonMin (resistanceLevels candles.dropLast) = some r →
      r + PIP_SIZE < (candles.getLastD defaultCandle).c →
      SRBreakout.check candles =
        (true, s!"RESISTANCE Breakout detected at R={formatFixed5 r} (Close={formatFixed5 (candles.getLastD defaultCandle).c}).")) ∧
    ((∀ r, pythonMin (resistanceLevels candles.dropLast) = some r →
        ¬ r + PIP_SIZE < (candles.getLastD defaultCandle).c) →
     (∀ s, pythonMin (supportLevels candles.dropLast) = some s →
        ¬ (candles.getLastD defaultCandle).c < s - PIP_SIZE) →
      SRBreakout.check candles = (false, "No S/R Breakout found.")) := by
  rw [SRBreakout.check_eq candles h]
  refine ⟨srBreakoutTest_matched_iff _ _ _, ?_, srBreakoutTest_no_match _ _ _⟩
  intro r hr hlt
  rw [hr]
  exact srBreakoutTest_resistance_detail _ _ r hlt

/-- Concrete 51-candle input for the SR witness: one bull-then-bear pair
establishing resistance 2, no support pattern, final close 10. -/
def srWitnessCandles : List Candle :=
  [⟨"s0", 1, 0, 0, 2⟩, ⟨"s1", 2, 0, 0, 1⟩] ++
    List.replicate 48 ⟨"sd", 1, 0, 0, 1⟩ ++ [⟨"s50", 5, 0, 0, 10⟩]

theorem sr_check_characterization_witness :
    SRBreakout.minRequiredCompletedCandles ≤ srWitnessCandles.length ∧
    (SRBreakout.check srWitnessCandles).1 = true := by
  have h := sr_check_characterization srWitnessCandles (by with_unfolding_all decide)
  refine ⟨by with_unfolding_all decide, ?_⟩
  exact h.1.mpr (Or.inl ⟨2, by with_unfolding_all rfl, by with_unfolding_all decide⟩)

/-- Membership in a level list produced by the sliding size-2 window: the
candidates are exactly the values `f` extracts from a consecutive index
pair of the historical list. -/
theorem mem_zip_tail_filterMap (hist : List Candle)
    (f : Candle × Candle → Option ℚ) (x : ℚ) :
    x ∈ (hist.zip hist.tail).filterMap f ↔
      ∃ i : ℕ, i + 1 < hist.length ∧
        f (hist.getD i defaultCandle, hist.getD (i+1) defaultCandle) = some x := by
  rw [List.mem_filterMap]
  constructor
  · rintro ⟨p, hp, hfp⟩
    obtain ⟨i, hi, hget⟩ := List.mem_iff_getElem.mp hp
    have hlen : i + 1 < hist.length := by
      have := List.length_zip hist hist.tail
      rw [this, List.length_tail] at hi
      omega
    have h1 : i < hist.length := by omega
    have h2 : i < hist.tail.length := by rw [List.length_tail]; omega
    refine ⟨i, hlen, ?_⟩
    have hz : (hist.zip hist.tail)[i] = (hist[i], hist.tail[i]) := List.getElem_zip
    have ht : hist.tail[i] = hist[i+1] := List.getElem_tail hist i h2
    rw [List.getD_eq_getElem hist defaultCandle h1,
        List.getD_eq_getElem hist defaultCandle hlen, ← ht, ← hz, hget]
    exact hfp
  · rintro ⟨i, hlen, hfx⟩
    have h1 : i < hist.length := by omega
    have h2 : i < hist.tail.length := by rw [List.length_tail]; omega
    have hi : i < (hist.zip hist.tail).length := by
      rw [List.length_zip, List.length_tail]
      omega
    refine ⟨(hist.zip hist.tail)[i], List.getElem_mem hi, ?_⟩
    have hz : (hist.zip hist.tail)[i] = (hist[i], hist.tail[i]) := List.getElem_zip
    have ht : hist.tail[i] = hist[i+1] := List.getElem_tail hist i h2
    rw [hz, ht, ← List.getD_eq_getElem hist defaultCandle h1,
        ← List.getD_eq_getElem hist defaultCandle hlen]
    exact hfx

/-- **C3.** Candidate supports are the closes of bear candles immediately
followed by a bull candle among consecutive pairs of the historical list;
candidate resistances are the closes of bull candles immediately followed
by a bear candle; both consolidated levels are the *minimum* of their
candidate lists, and a side with no candidates is `none`. -/
theorem sr_level_collection_characterization (hist : List Candle) :
    (∀ x : ℚ, x ∈ supportLevels hist ↔
      ∃ i : ℕ, i + 1 < hist.length ∧
        (hist.getD i defaultCandle).c < (hist.getD i defaultCandle).o ∧
        (hist.getD (i+1) defaultCandle).c > (hist.getD (i+1) defaultCandle).o ∧
        x = (hist.getD i defaultCandle).c) ∧
    (∀ x : ℚ, x ∈ resistanceLevels hist ↔
      ∃ i : ℕ, i + 1 < hist.length ∧
        (hist.getD i defaultCandle).c > (hist.getD i defaultCandle).o ∧
        (hist.getD (i+1) defaultCandle).c < (hist.getD (i+1) defaultCandle).o ∧
        x = (hist.getD i defaultCandle).c) ∧
    (pythonMin (supportLevels hist) = none ↔ supportLevels hist = []) ∧
    (∀ x : ℚ, pythonMin (supportLevels hist) = some x ↔
      x ∈ supportLevels hist ∧ ∀ y ∈ supportLevels hist, x ≤ y) ∧
    (pythonMin (resistanceLevels hist) = none ↔ resistanceLevels hist = []) ∧
    (∀ x : ℚ, pythonMin (resistanceLevels hist) = some x ↔
      x ∈ resistanceLevels hist ∧ ∀ y ∈ resistanceLevels hist, x ≤ y) := by
  refine ⟨?_, ?_, pythonMin_eq_none_iff _, fun x => pythonMin_eq_some_iff _ x,
    pythonMin_eq_none_iff _, fun x => pythonMin_eq_some_iff _ x⟩
  · intro x
    rw [supportLevels, mem_zip_tail_filterMap]
    constructor
    · rintro ⟨i, hlen, hfx⟩
      split_ifs at hfx with hc
      injection hfx with hfx
      exact ⟨i, hlen, hc.1, hc.2, hfx.symm⟩
    · rintro ⟨i, hlen, hbear, hbull, rfl⟩
      exact ⟨i, hlen, by rw [if_pos ⟨hbear, hbull⟩]⟩
  · intro x
    rw [resistanceLevels, mem_zip_tail_filterMap]
    constructor
    · rintro ⟨i, hlen, hfx⟩
      split_ifs at hfx with hc
      injection hfx with hfx
      exact ⟨i, hlen, hc.1, hc.2, hfx.symm⟩
    · rintro ⟨i, hlen, hbull, hbear, rfl⟩
      exact ⟨i, hlen, by rw [if_pos ⟨hbull, hbear⟩]⟩

theorem sr_level_collection_characterization_witness :
    pythonMin (supportLevels [⟨"u0", 2, 0, 0, 1⟩, ⟨"u1", 1, 0, 0, 3⟩, ⟨"u2", 3, 0, 0, 2⟩]) =
      some 1 ∧
    pythonMin (resistanceLevels [⟨"u0", 2, 0, 0, 1⟩, ⟨"u1", 1, 0, 0, 3⟩, ⟨"u2", 3, 0, 0, 2⟩]) =
      some 3 := by
  have h := sr_level_collection_characterization
    [⟨"u0", 2, 0, 0, 1⟩, ⟨"u1", 1, 0, 0, 3⟩, ⟨"u2", 3, 0, 0, 2⟩]
  refine ⟨(h.2.2.2.1 1).mpr ⟨?_, ?_⟩, (h.2.2.2.2.2 3).mpr ⟨?_, ?_⟩⟩
  · exact (h.1 1).mpr ⟨0, by with_unfolding_all decide, by with_unfolding_all decide,
      by with_unfolding_all decide, by with_unfolding_all rfl⟩
  · intro y hy
    have := (h.1 y).mp hy
    obtain ⟨i, hlen, hA, hB, rfl⟩ := this
    simp only [List.length_cons, List.length_nil] at hlen
    rcases i with _ | _ | i
    · revert hA hB; with_unfolding_all decide
    · revert hA hB; with_unfolding_all decide
    · omega
  · exact (h.2.1 3).mpr ⟨1, by with_unfolding_all decide, by with_unfolding_all decide,
      by with_unfolding_all decide, by with_unfolding_all rfl⟩
  · intro y hy
    have := (h.2.1 y).mp hy
    obtain ⟨i, hlen, hA, hB, rfl⟩ := this
    simp only [List.length_cons, List.length_nil] at hlen
    rcases i with _ | _ | i
    · revert hA hB; with_unfolding_all decide
    · revert hA hB; with_unfolding_all decide
    · omega

/-- **C7.** Below the minimum completed-candle count (4 for engulfing, 51
for S/R), each check returns `matched = false` with the insufficient-data
detail; in particular both checks are defined (and negative) on the empty
list — no out-of-bounds access is possible, every index the algorithms
read lies behind these guards. -/
theorem insufficient_data_guards (candles : List Candle) :
    (candles.length < EngulfingStrategy.minRequiredCompletedCandles →
      EngulfingStrategy.check candles =
        (false, s!"Not enough completed candles ({candles.length}) for check.")) ∧
    (candles.length < SRBreakout.minRequiredCompletedCandles →
      SRBreakout.check candles =
        (false, s!"Not enough candles ({candles.length}) for check.")) := by
  constructor
  · intro hlen
    rw [EngulfingStrategy.minRequiredCompletedCandles] at hlen
    unfold EngulfingStrategy.check
    rcases hrev : candles.reverse with _ | ⟨a, _ | ⟨b, _ | ⟨c, _ | ⟨d, t⟩⟩⟩⟩ <;> simp
    exfalso
    have h4 := congrArg List.length hrev
    rw [List.length_reverse] at h4
    simp at h4
    omega
  · intro hlen
    unfold SRBreakout.check
    rw [if_pos hlen]

theorem insufficient_data_guards_witness :
    EngulfingStrategy.check [] = (false, "Not enough completed candles (0) for check.") ∧
    SRBreakout.check [] = (false, "Not enough candles (0) for check.") := by
  have h := insufficient_data_guards []
  exact ⟨h.1 (by decide), h.2 (by decide)⟩

/-- Uniform positive price scaling of a candle's open and close. -/
def scaleCandle (k : ℚ) (cd : Candle) : Candle :=
  ⟨cd.time, k * cd.o, cd.h, cd.l, k * cd.c⟩

theorem getCandleDirection_scale (k : ℚ) (hk : 0 < k) (cd : Candle) :
    getCandleDirection (scaleCandle k cd) = getCandleDirection cd := by
  unfold getCandleDirection scaleCandle
  simp only
  rcases lt_trichotomy cd.o cd.c with h | h | h
  · rw [if_pos h, if_pos (mul_lt_mul_of_pos_left h hk)]
  · rw [h]
    simp
  · rw [if_neg (not_lt.mpr h.le),
        if_neg (not_lt.mpr (mul_le_mul_of_nonneg_left h.le hk.le)),
        if_pos h, if_pos (mul_lt_mul_of_pos_left h hk)]

theorem getBodySize_scale (k : ℚ) (hk : 0 < k) (cd : Candle) :
    getBodySize (scaleCandle k cd) = k * getBodySize cd := by
  unfold getBodySize scaleCandle ratAbs
  simp only
  rw [← mul_sub]
  by_cases h : cd.c - cd.o < 0
  · rw [if_pos h, if_pos (mul_neg_of_pos_of_neg hk h), mul_neg]
  · rw [if_neg h,
        if_neg (not_lt.mpr (mul_nonneg hk.le (not_lt.mp h)))]

/-- **C8.** The engulfing detector's matched outcome is invariant under
scaling every open and close by a positive constant. -/
theorem engulfing_scale_invariant (candles : List Candle) (k : ℚ) (hk : 0 < k) :
    (EngulfingStrategy.check (candles.map (scaleCandle k))).1 =
      (EngulfingStrategy.check candles).1 := by
  unfold EngulfingStrategy.check
  rw [(List.map_reverse (scaleCandle k) candles).symm]
  rcases candles.reverse with _ | ⟨a, _ | ⟨b, _ | ⟨c, _ | ⟨d, t⟩⟩⟩⟩ <;>
    simp only [List.map_cons, List.map_nil]
  simp only [getCandleDirection_scale k hk, getBodySize_scale k hk,
    mul_le_mul_left hk]

theorem engulfing_scale_invariant_witness :
    (0 : ℚ) < 3 ∧
    (EngulfingStrategy.check
       ([⟨"t1", 1, 0, 0, 2⟩, ⟨"t2", 2, 0, 0, 3⟩, ⟨"t3", 3, 0, 0, 4⟩,
         ⟨"t4", 5, 0, 0, 3⟩].map (scaleCandle 3))).1 =
      (EngulfingStrategy.check
        [⟨"t1", 1, 0, 0, 2⟩, ⟨"t2", 2, 0, 0, 3⟩, ⟨"t3", 3, 0, 0, 4⟩,
         ⟨"t4", 5, 0, 0, 3⟩]).1 :=
  ⟨by norm_num,
   engulfing_scale_invariant
     [⟨"t1", 1, 0, 0, 2⟩, ⟨"t2", 2, 0, 0, 3⟩, ⟨"t3", 3, 0, 0, 4⟩, ⟨"t4", 5, 0, 0, 3⟩]
     3 (by norm_num)⟩

/-- A list of length at least 4 reverses to at least four explicit heads. -/
theorem exists_rev4 (l : List Candle) (h : 4 ≤ l.length) :
    ∃ c1 c2 c3 c4 rest, l.reverse = c1 :: c2 :: c3 :: c4 :: rest := by
  rcases hrev : l.reverse with _ | ⟨a, _ | ⟨b, _ | ⟨c, _ | ⟨d, t⟩⟩⟩⟩
  all_goals try
    (have h4 := congrArg List.length hrev
     rw [List.length_reverse] at h4
     simp only [List.length_nil, List.length_cons] at h4
     omega)
  exact ⟨a, b, c, d, t, rfl⟩

/-- **C9.** The engulfing check reads only the last four candles: prepending
any candles to a sequence of length at least 4 leaves the whole
`(matched, detail)` result unchanged. -/
theorem engulfing_depends_on_last_four (pre candles : List Candle)
    (h : 4 ≤ candles.length) :
    EngulfingStrategy.check (pre ++ candles) = EngulfingStrategy.check candles := by
  obtain ⟨c1, c2, c3, c4, rest, hrev⟩ := exists_rev4 candles h
  have hrev2 : (pre ++ candles).reverse = c1 :: c2 :: c3 :: c4 :: (rest ++ pre.reverse) := by
    rw [List.reverse_append, hrev]
    simp
  unfold EngulfingStrategy.check
  rw [hrev, hrev2]

theorem engulfing_depends_on_last_four_witness :
    4 ≤ ([⟨"t1", 1, 0, 0, 2⟩, ⟨"t2", 2, 0, 0, 3⟩, ⟨"t3", 3, 0, 0, 4⟩,
          ⟨"t4", 5, 0, 0, 3⟩] : List Candle).length ∧
    EngulfingStrategy.check
        ([⟨"p0", 9, 8, 7, 6⟩] ++
          [⟨"t1", 1, 0, 0, 2⟩, ⟨"t2", 2, 0, 0, 3⟩, ⟨"t3", 3, 0, 0, 4⟩, ⟨"t4", 5, 0, 0, 3⟩]) =
      EngulfingStrategy.check
        [⟨"t1", 1, 0, 0, 2⟩, ⟨"t2", 2, 0, 0, 3⟩, ⟨"t3", 3, 0, 0, 4⟩, ⟨"t4", 5, 0, 0, 3⟩] :=
  ⟨by norm_num,
   engulfing_depends_on_last_four [⟨"p0", 9, 8, 7, 6⟩]
     [⟨"t1", 1, 0, 0, 2⟩, ⟨"t2", 2, 0, 0, 3⟩, ⟨"t3", 3, 0, 0, 4⟩, ⟨"t4", 5, 0, 0, 3⟩]
     (by norm_num)⟩

/-- Replaces a candle's high and low with 0, keeping the fields the
detectors read (`time`, `mid.o`, `mid.c`). -/
def stripHL (cd : Candle) : Candle := ⟨cd.time, cd.o, 0, 0, cd.c⟩

/-- Agreement on the detector-visible fields: mid open, mid close and
timestamp (high and low are unconstrained). -/
def midAgree (a b : Candle) : Prop := a.time = b.time ∧ a.o = b.o ∧ a.c = b.c

theorem stripHL_eq_of_midAgree {a b : Candle} (h : midAgree a b) :
    stripHL a = stripHL b := by
  obtain ⟨h1, h2, h3⟩ := h
  simp [stripHL, h1, h2, h3]

theorem map_stripHL_eq {l1 l2 : List Candle} (h : List.Forall₂ midAgree l1 l2) :
    l1.map stripHL = l2.map stripHL := by
  induction h with
  | nil => rfl
  | cons hab htl ih => simp [List.map_cons, stripHL_eq_of_midAgree hab, ih]

theorem engulfing_stripHL (l : List Candle) :
    EngulfingStrategy.check (l.map stripHL) = EngulfingStrategy.check l := by
  unfold EngulfingStrategy.check
  rw [(List.map_reverse stripHL l).symm]
  rcases l.reverse with _ | ⟨a, _ | ⟨b, _ | ⟨c, _ | ⟨d, t⟩⟩⟩⟩ <;>
    simp only [List.map_cons, List.map_nil, List.length_map] <;> rfl

theorem supportLevels_stripHL (hist : List Candle) :
    supportLevels (hist.map stripHL) = supportLevels hist := by
  unfold supportLevels
  rw [(List.map_tail stripHL hist).symm, List.zip_map, List.filterMap_map]
  rfl

theorem resistanceLevels_stripHL (hist : List Candle) :
    resistanceLevels (hist.map stripHL) = resistanceLevels hist := by
  unfold resistanceLevels
  rw [(List.map_tail stripHL hist).symm, List.zip_map, List.filterMap_map]
  rfl

theorem sr_check_stripHL (l : List Candle) :
    SRBreakout.check (l.map stripHL) = SRBreakout.check l := by
  unfold SRBreakout.check
  rw [List.length_map]
  by_cases hlen : l.length < SRBreakout.minRequiredCompletedCandles
  · rw [if_pos hlen, if_pos hlen]
  · rw [if_neg hlen, if_neg hlen]
    have hne : l ≠ [] := by
      intro hnil
      rw [hnil] at hlen
      exact hlen (by simp [SRBreakout.minRequiredCompletedCandles])
    have hlast : ((l.map stripHL).getLastD defaultCandle).c =
        (l.getLastD defaultCandle).c := by
      rw [List.getLastD_eq_getLast?, List.getLastD_eq_getLast?, List.getLast?_map]
      obtain ⟨x, hx⟩ := List.getLast?_isSome.mpr hne |> Option.isSome_iff_exists.mp
      rw [hx]
      rfl
    rw [hlast, (List.map_dropLast stripHL l).symm]
    simp only [supportLevels_stripHL, resistanceLevels_stripHL]

/-- **C10.** Neither detector reads a candle's high or low: on two
equal-length sequences agreeing pointwise on mid open, mid close and
timestamp, both checks return identical `(matched, detail)` results. -/
theorem detectors_ignore_high_low (l1 l2 : List Candle)
    (h : List.Forall₂ midAgree l1 l2) :
    EngulfingStrategy.check l1 = EngulfingStrategy.check l2 ∧
    SRBreakout.check l1 = SRBreakout.check l2 := by
  have hmap := map_stripHL_eq h
  constructor
  · rw [← engulfing_stripHL l1, ← engulfing_stripHL l2, hmap]
  · rw [← sr_check_stripHL l1, ← sr_check_stripHL l2, hmap]

theorem detectors_ignore_high_low_witness :
    EngulfingStrategy.check
        [⟨"t1", 1, 50, -50, 2⟩, ⟨"t2", 2, 60, -60, 3⟩, ⟨"t3", 3, 70, -70, 4⟩,
         ⟨"t4", 5, 80, -80, 3⟩] =
      EngulfingStrategy.check
        [⟨"t1", 1, 0, 0, 2⟩, ⟨"t2", 2, 0, 0, 3⟩, ⟨"t3", 3, 0, 0, 4⟩,
         ⟨"t4", 5, 0, 0, 3⟩] :=
  (detectors_ignore_high_low
    [⟨"t1", 1, 50, -50, 2⟩, ⟨"t2", 2, 60, -60, 3⟩, ⟨"t3", 3, 70, -70, 4⟩,
     ⟨"t4", 5, 80, -80, 3⟩]
    [⟨"t1", 1, 0, 0, 2⟩, ⟨"t2", 2, 0, 0, 3⟩, ⟨"t3", 3, 0, 0, 4⟩,
     ⟨"t4", 5, 0, 0, 3⟩]
    (by
      refine List.Forall₂.cons ⟨rfl, rfl, rfl⟩ ?_
      refine List.Forall₂.cons ⟨rfl, rfl, rfl⟩ ?_
      refine List.Forall₂.cons ⟨rfl, rfl, rfl⟩ ?_
      exact List.Forall₂.cons ⟨rfl, rfl, rfl⟩ List.Forall₂.nil)).1

/-- The alert payload `_run_single_strategy_check` builds on a match
(`strategy`, `instrument`, `timeframe`, `candle_time`, `message`). -/
structure AlertPayload where
  strategy : String
  instrument : String
  timeframe : String
  candleTime : String
  message : String
deriving DecidableEq, Repr

/-- A registered strategy instance as the runner sees it: its class name,
pair, candle requirements and `check` function. -/
structure StrategyModel where
  name : String
  instrument : String
  timeframe : String
  requiredCandles : ℕ
  minRequiredCompletedCandles : ℕ
  check : List Candle → Bool × String

/-- `StrategyRunner._run_single_strategy_check`: if fewer candles than the
strategy's minimum arrive, the check is skipped (logged only, `check` never
invoked); otherwise `check` runs and a matched result produces the
notification payload.  The first component records whether `check` was
invoked. -/
def runSingleStrategyCheck (s : StrategyModel) (candles : List Candle) :
    Bool × Option AlertPayload :=
  if candles.length < s.minRequiredCompletedCandles then
    (false, none)
  else
    let r := s.check candles
    (true,
      if r.1 then
        some ⟨s.name, s.instrument, s.timeframe,
          (candles.getLastD defaultCandle).time, r.2⟩
      else none)

/-- Result of one tick of `_run_all_checks` restricted to a single
`(instrument, timeframe)` key: the cache value afterwards, whether the
group was evaluated, and the notifications sent. -/
structure TickKeyResult where
  cacheAfter : Option String
  evaluated : Bool
  notifications : List AlertPayload
deriving DecidableEq, Repr

/-- The body of `_run_all_checks` for one `(instrument, timeframe)` key.
`cached` is `last_run_time_cache.get(cache_key)` (`none` when absent),
`latest` the result of `_get_latest_completed_candle_time` (`none` on fetch
failure), `fullFetch` the full `get_candles` result (`none` when that fetch
raises).  The embedded detector checks are total functions, so the
`check_successful` flag of the source — set to `False` only when a check
raises — is always `True` here and the cache is updated after an evaluated
group. -/
def tickKey (strategies : List StrategyModel) (cached : Option String)
    (latest : Option String) (fullFetch : Option (List Candle)) : TickKeyResult :=
  match latest with
  | none => ⟨cached, false, []⟩
  | some t =>
    if cached = some t then ⟨cached, false, []⟩
    else
      match fullFetch with
      | none => ⟨cached, false, []⟩
      | some candles =>
        let results := strategies.map fun s => runSingleStrategyCheck s candles
        ⟨some t, true, results.filterMap fun r => r.2⟩

/-- **C4.** On a tick whose observed latest-candle timestamp equals the
cached one, the group is not evaluated, nothing is notified and the cache
is unchanged; with the full fetch succeeding, a key is evaluated exactly
when it is absent from the cache or the observed timestamp differs; and
two consecutive ticks observing the same timestamp evaluate the group
exactly once. -/
theorem freshness_gate (strategies : List StrategyModel)
    (cached : Option String) (t : String) (cs : List Candle)
    (f f₂ : Option (List Candle)) :
    (tickKey strategies (some t) (some t) f =
      ⟨some t, false, []⟩) ∧
    ((tickKey strategies cached (some t) (some cs)).evaluated = true ↔
      cached ≠ some t) ∧
    (cached ≠ some t →
      (tickKey strategies cached (some t) (some cs)).evaluated = true ∧
      (tickKey strategies
          (tickKey strategies cached (some t) (some cs)).cacheAfter
          (some t) f₂).evaluated = false) := by
  refine ⟨?_, ?_, ?_⟩
  · simp [tickKey]
  · by_cases h : cached = some t
    · simp [tickKey, h]
    · simp [tickKey, h]
  · intro h
    constructor
    · simp [tickKey, h]
    · simp [tickKey, h]

theorem freshness_gate_witness :
    (tickKey [] none (some "2024-01-15T10:30:00Z") (some []) ).evaluated = true ∧
    (tickKey []
        (tickKey [] none (some "2024-01-15T10:30:00Z") (some [])).cacheAfter
        (some "2024-01-15T10:30:00Z") (some [])).evaluated = false :=
  (freshness_gate [] none "2024-01-15T10:30:00Z" [] none (some [])).2.2
    (by simp)

/-- The `EngulfingStrategy(instrument, timeframe)` instance as a runner
strategy: class name, 6 requested candles, minimum 4, engulfing check. -/
def engulfingStrategyModel (instrument timeframe : String) : StrategyModel :=
  ⟨"EngulfingStrategy", instrument, timeframe, EngulfingStrategy.requiredCandles,
   EngulfingStrategy.minRequiredCompletedCandles, EngulfingStrategy.check⟩

/-- The `SRBreakout(instrument, timeframe)` instance as a runner strategy. -/
def srBreakoutStrategyModel (instrument timeframe : String) : StrategyModel :=
  ⟨"SRBreakout", instrument, timeframe, SRBreakout.requiredCandles,
   SRBreakout.minRequiredCompletedCandles, SRBreakout.check⟩

/-- **C5 (counterexample).** A fresh key, a new timestamp and a full fetch
of only three candles — fewer than the engulfing strategy's minimum of
four.  The insufficient-data path raises no exception, so the group
completes and the cache IS advanced to the new timestamp, where the claim
says it is not advanced. -/
theorem insufficient_data_cache_counterexample :
    ([⟨"a", 1, 0, 0, 2⟩, ⟨"b", 2, 0, 0, 3⟩, ⟨"c", 3, 0, 0, 4⟩] : List Candle).length <
      (engulfingStrategyModel "XAU_USD" "M30").minRequiredCompletedCandles ∧
    (tickKey [engulfingStrategyModel "XAU_USD" "M30"] none (some "t1")
        (some [⟨"a", 1, 0, 0, 2⟩, ⟨"b", 2, 0, 0, 3⟩, ⟨"c", 3, 0, 0, 4⟩])).cacheAfter =
      some "t1" := by
  exact ⟨by decide, by with_unfolding_all rfl⟩

/-- **C5 (amended).** When a strategy in an evaluated live-scan group
receives fewer candles than its minimum, the runner skips that strategy's
check non-fatally: the check is never invoked and no notification is
produced for it — but, since no exception is raised, the group completes
and the freshness cache entry IS advanced to the new timestamp on that
tick. -/
theorem insufficient_data_skip (strategies : List StrategyModel)
    (cached : Option String) (t : String) (candles : List Candle)
    (s : StrategyModel) (hmem : s ∈ strategies) (hnew : cached ≠ some t)
    (hshort : candles.length < s.minRequiredCompletedCandles) :
    runSingleStrategyCheck s candles = (false, none) ∧
    (tickKey strategies cached (some t) (some candles)).cacheAfter = some t ∧
    (tickKey strategies cached (some t) (some candles)).evaluated = true := by
  refine ⟨?_, ?_, ?_⟩
  · unfold runSingleStrategyCheck
    rw [if_pos hshort]
  · simp [tickKey, hnew]
  · simp [tickKey, hnew]

theorem insufficient_data_skip_witness :
    runSingleStrategyCheck (engulfingStrategyModel "XAU_USD" "M30")
        [⟨"a", 1, 0, 0, 2⟩, ⟨"b", 2, 0, 0, 3⟩, ⟨"c", 3, 0, 0, 4⟩] = (false, none) ∧
    (tickKey [engulfingStrategyModel "XAU_USD" "M30"] none (some "t1")
        (some [⟨"a", 1, 0, 0, 2⟩, ⟨"b", 2, 0, 0, 3⟩, ⟨"c", 3, 0, 0, 4⟩])).cacheAfter =
      some "t1" ∧
    (tickKey [engulfingStrategyModel "XAU_USD" "M30"] none (some "t1")
        (some [⟨"a", 1, 0, 0, 2⟩, ⟨"b", 2, 0, 0, 3⟩, ⟨"c", 3, 0, 0, 4⟩])).evaluated =
      true :=
  insufficient_data_skip [engulfingStrategyModel "XAU_USD" "M30"] none "t1"
    [⟨"a", 1, 0, 0, 2⟩, ⟨"b", 2, 0, 0, 3⟩, ⟨"c", 3, 0, 0, 4⟩]
    (engulfingStrategyModel "XAU_USD" "M30") (List.mem_cons_self _ _)
    (by simp) (by decide)

instance : Inhabited StrategyModel :=
  ⟨⟨"", "", "", 0, 0, fun _ => (false, "")⟩⟩

/-- `all_candles[lookback_start_index : i + 1]` with `lookback_start_index
= i - strategy.required_candles + 1`; every index the loop visits satisfies
`i ≥ required_candles`, so the Python start index is the non-negative
`i + 1 - req` and truncated subtraction is faithful. -/
def candleSlice (allCandles : List Candle) (i req : ℕ) : List Candle :=
  (allCandles.take (i + 1)).drop (i + 1 - req)

/-- `max_lookback = max(s.required_candles for s in self.strategies)`
(Python's `max` over the nonempty strategy list; the fold seed 0 is never
the answer for nonempty input with positive requirements). -/
def maxLookback (strategies : List StrategyModel) : ℕ :=
  (strategies.map fun s => s.requiredCandles).foldl max 0

/-- One index of `run_backtest`'s inner strategy loop.  Counters are
position-aligned with `strategies` (the Python dict is keyed by the
distinct class names); a window shorter than the strategy's minimum is
skipped, a matching check increments exactly that strategy's counter. -/
def backtestStep (strategies : List StrategyModel) (allCandles : List Candle)
    (counts : List ℕ) (i : ℕ) : List ℕ :=
  (strategies.zip counts).map fun sc =>
    let slice := candleSlice allCandles i sc.1.requiredCandles
    if slice.length < sc.1.minRequiredCompletedCandles then sc.2
    else if (sc.1.check slice).1 then sc.2 + 1 else sc.2

/-- `Backtester.run_backtest`'s counting loop: indices
`range(max_lookback, len(all_candles))` folded over zero-initialised
per-strategy counters. -/
def runBacktest (strategies : List StrategyModel) (allCandles : List Candle) : List ℕ :=
  (List.range' (maxLookback strategies) (allCandles.length - maxLookback strategies)).foldl
    (backtestStep strategies allCandles) (strategies.map fun _ => 0)

/-- Whether index `i`'s trailing window produces a counted signal for
strategy `s` (window long enough and check matched). -/
def backtestHit (s : StrategyModel) (allCandles : List Candle) (i : ℕ) : Bool :=
  let slice := candleSlice allCandles i s.requiredCandles
  if slice.length < s.minRequiredCompletedCandles then false
  else (s.check slice).1

/-- **C6, as the claim words it** (refinement model written from the spec
sentence): lookback and window sizes taken from
`minRequiredCompletedCandles` instead of `required_candles`. -/
def claimedMaxLookback (strategies : List StrategyModel) : ℕ :=
  (strategies.map fun s => s.minRequiredCompletedCandles).foldl max 0

/-- The claim's version of the per-index step: windows
`candles[i - minRequiredCompletedCandles + 1 .. i]`. -/
def claimedBacktestStep (strategies : List StrategyModel) (allCandles : List Candle)
    (counts : List ℕ) (i : ℕ) : List ℕ :=
  (strategies.zip counts).map fun sc =>
    let slice := candleSlice allCandles i sc.1.minRequiredCompletedCandles
    if slice.length < sc.1.minRequiredCompletedCandles then sc.2
    else if (sc.1.check slice).1 then sc.2 + 1 else sc.2

/-- The claim's version of the whole loop, for comparison with
`runBacktest`. -/
def claimedBacktest (strategies : List StrategyModel) (allCandles : List Candle) : List ℕ :=
  (List.range' (claimedMaxLookback strategies)
      (allCandles.length - claimedMaxLookback strategies)).foldl
    (claimedBacktestStep strategies allCandles) (strategies.map fun _ => 0)

/-- Six candles: five bulls then one large bear — an engulfing signal in
the final four candles. -/
def backtestDemoCandles : List Candle :=
  [⟨"b0", 1, 0, 0, 2⟩, ⟨"b1", 1, 0, 0, 2⟩, ⟨"b2", 1, 0, 0, 2⟩,
   ⟨"b3", 2, 0, 0, 3⟩, ⟨"b4", 3, 0, 0, 4⟩, ⟨"b5", 9, 0, 0, 3⟩]

/-- **C6 (counterexample).** On six candles with an engulfing signal in the
last four, the loop the claim describes (lookback and windows from the
4-candle minimum) would count one signal, but the code's loop (lookback
and windows from the 6 requested candles) runs over an empty index range
and counts zero. -/
theorem backtest_lookback_counterexample :
    claimedBacktest [engulfingStrategyModel "XAU_USD" "M30"] backtestDemoCandles = [1] ∧
    runBacktest [engulfingStrategyModel "XAU_USD" "M30"] backtestDemoCandles = [0] ∧
    claimedBacktest [engulfingStrategyModel "XAU_USD" "M30"] backtestDemoCandles ≠
      runBacktest [engulfingStrategyModel "XAU_USD" "M30"] backtestDemoCandles := by
  refine ⟨by with_unfolding_all rfl, by with_unfolding_all rfl, ?_⟩
  intro h
  rw [show claimedBacktest [engulfingStrategyModel "XAU_USD" "M30"] backtestDemoCandles = [1]
      from by with_unfolding_all rfl,
    show runBacktest [engulfingStrategyModel "XAU_USD" "M30"] backtestDemoCandles = [0]
      from by with_unfolding_all rfl] at h
  cases h

theorem backtestStep_length (strategies : List StrategyModel)
    (allCandles : List Candle) (counts : List ℕ) (i : ℕ)
    (hc : counts.length = strategies.length) :
    (backtestStep strategies allCandles counts i).length = strategies.length := by
  unfold backtestStep
  rw [List.length_map, List.length_zip, hc, Nat.min_self]

theorem backtestStep_getD (strategies : List StrategyModel) (allCandles : List Candle)
    (counts : List ℕ) (i j : ℕ) (hj : j < strategies.length)
    (hc : counts.length = strategies.length) :
    (backtestStep strategies allCandles counts i).getD j 0 =
      counts.getD j 0 +
        (if backtestHit (strategies.getD j default) allCandles i then 1 else 0) := by
  have hjc : j < counts.length := by omega
  have hjz : j < (strategies.zip counts).length := by
    rw [List.length_zip, hc, Nat.min_self]
    exact hj
  have hlen : j < (backtestStep strategies allCandles counts i).length := by
    rw [backtestStep_length strategies allCandles counts i hc]
    exact hj
  rw [List.getD_eq_getElem _ _ hlen, List.getD_eq_getElem _ _ hjc,
      List.getD_eq_getElem _ _ hj]
  unfold backtestStep backtestHit
  rw [List.getElem_map]
  have hz : (strategies.zip counts)[j] = (strategies[j], counts[j]) := List.getElem_zip
  rw [hz]
  simp only
  by_cases hcond : (candleSlice allCandles i strategies[j].requiredCandles).length <
      strategies[j].minRequiredCompletedCandles
  · simp [hcond]
  · by_cases hchk :
        (strategies[j].check (candleSlice allCandles i strategies[j].requiredCandles)).1 = true
    · simp [hcond, hchk]
    · simp [hcond, hchk]

theorem foldl_backtestStep_spec (strategies : List StrategyModel)
    (allCandles : List Candle) (idxs : List ℕ) (counts : List ℕ)
    (hc : counts.length = strategies.length) :
    (idxs.foldl (backtestStep strategies allCandles) counts).length = strategies.length ∧
    ∀ j, j < strategies.length →
      (idxs.foldl (backtestStep strategies allCandles) counts).getD j 0 =
        counts.getD j 0 +
          idxs.countP (backtestHit (strategies.getD j default) allCandles) := by
  induction idxs generalizing counts with
  | nil =>
    exact ⟨hc, fun j hj => by simp⟩
  | cons i idxs ih =>
    have hlen := backtestStep_length strategies allCandles counts i hc
    obtain ⟨ih1, ih2⟩ := ih (backtestStep strategies allCandles counts i) hlen
    refine ⟨ih1, fun j hj => ?_⟩
    rw [List.foldl_cons, ih2 j hj,
        backtestStep_getD strategies allCandles counts i j hj hc, List.countP_cons]
    by_cases hb : backtestHit (strategies.getD j default) allCandles i = true
    · rw [if_pos hb]
      omega
    · rw [if_neg hb]
      omega

theorem foldl_max_le (xs : List ℕ) (a : ℕ) :
    a ≤ xs.foldl max a ∧ ∀ y ∈ xs, y ≤ xs.foldl max a := by
  induction xs generalizing a with
  | nil => exact ⟨le_refl a, by intro y hy; cases hy⟩
  | cons b bs ih =>
    have hfold : (b :: bs).foldl max a = bs.foldl max (max a b) := rfl
    obtain ⟨h1, h2⟩ := ih (max a b)
    refine ⟨by rw [hfold]; exact (le_max_left a b).trans h1, ?_⟩
    intro y hy
    rcases List.mem_cons.mp hy with rfl | hy
    · rw [hfold]; exact (le_max_right a y).trans h1
    · rw [hfold]; exact h2 y hy

theorem foldl_max_mem (xs : List ℕ) (a : ℕ) :
    xs.foldl max a = a ∨ xs.foldl max a ∈ xs := by
  induction xs generalizing a with
  | nil => exact Or.inl rfl
  | cons b bs ih =>
    have hfold : (b :: bs).foldl max a = bs.foldl max (max a b) := rfl
    rcases ih (max a b) with h | h
    · rcases max_choice a b with hm | hm
      · exact Or.inl (by rw [hfold, h, hm])
      · exact Or.inr (by rw [hfold, h, hm]; exact List.mem_cons_self b bs)
    · exact Or.inr (by rw [hfold]; exact List.mem_cons_of_mem b h)

theorem getD_map_zero (l : List StrategyModel) (j : ℕ) :
    (l.map fun _ => (0 : ℕ)).getD j 0 = 0 := by
  induction l generalizing j with
  | nil => rfl
  | cons a l ih =>
    cases j with
    | zero => rfl
    | succ j => exact ih j

/-- **C6 (amended).** The replay loop's starting lookback is the maximum of
`required_candles` (not `minRequiredCompletedCandles`) over the active
strategies; for each index `i` from that lookback to the end, each strategy
receives the trailing window `candles[i - required_candles + 1 .. i]`,
skipped when shorter than its `minRequiredCompletedCandles`; each match
increments exactly that strategy's counter by one, so the final counter of
strategy `j` counts exactly the matching indices. -/
theorem runBacktest_characterization (strategies : List StrategyModel)
    (allCandles : List Candle) (j : ℕ) (hj : j < strategies.length) :
    (runBacktest strategies allCandles).length = strategies.length ∧
    (runBacktest strategies allCandles).getD j 0 =
      (List.range' (maxLookback strategies)
          (allCandles.length - maxLookback strategies)).countP
        (backtestHit (strategies.getD j default) allCandles) ∧
    (∀ s ∈ strategies, s.requiredCandles ≤ maxLookback strategies) ∧
    (strategies ≠ [] →
      ∃ s ∈ strategies, maxLookback strategies = s.requiredCandles) := by
  have hc : (strategies.map fun _ => (0 : ℕ)).length = strategies.length :=
    List.length_map _ _
  obtain ⟨h1, h2⟩ := foldl_backtestStep_spec strategies allCandles
    (List.range' (maxLookback strategies)
      (allCandles.length - maxLookback strategies))
    (strategies.map fun _ => 0) hc
  refine ⟨h1, ?_, ?_, ?_⟩
  · rw [runBacktest, h2 j hj, getD_map_zero]
    omega
  · intro s hs
    exact (foldl_max_le (strategies.map fun s => s.requiredCandles) 0).2
      s.requiredCandles (List.mem_map_of_mem _ hs)
  · intro hne
    rcases foldl_max_mem (strategies.map fun s => s.requiredCandles) 0 with h | h
    · rcases strategies with _ | ⟨s0, srest⟩
      · exact absurd rfl hne
      · have hle := (foldl_max_le ((s0 :: srest).map fun s => s.requiredCandles) 0).2
          s0.requiredCandles (List.mem_map_of_mem _ (List.mem_cons_self s0 srest))
        refine ⟨s0, List.mem_cons_self s0 srest, ?_⟩
        unfold maxLookback
        omega
    · obtain ⟨s, hs, hval⟩ := List.mem_map.mp h
      exact ⟨s, hs, hval.symm⟩

theorem runBacktest_characterization_witness :
    0 < ([engulfingStrategyModel "XAU_USD" "M30"] : List StrategyModel).length ∧
    (runBacktest [engulfingStrategyModel "XAU_USD" "M30"] backtestDemoCandles).getD 0 0 =
      (List.range' (maxLookback [engulfingStrategyModel "XAU_USD" "M30"])
          (backtestDemoCandles.length -
            maxLookback [engulfingStrategyModel "XAU_USD" "M30"])).countP
        (backtestHit
          (([engulfingStrategyModel "XAU_USD" "M30"] : List StrategyModel).getD 0 default)
          backtestDemoCandles) :=
  ⟨by decide,
   (runBacktest_characterization [engulfingStrategyModel "XAU_USD" "M30"]
     backtestDemoCandles 0 (by decide)).2.1⟩

theorem engulfing_check_characterization_witness :
    (EngulfingStrategy.check
        [⟨"w1", 1, 0, 0, 2⟩, ⟨"w2", 2, 0, 0, 3⟩, ⟨"w3", 3, 0, 0, 4⟩,
         ⟨"w4", 5, 0, 0, 3⟩]).1 = true ∧
    (EngulfingStrategy.check
        [⟨"w1", 1, 0, 0, 2⟩, ⟨"w2", 2, 0, 0, 3⟩, ⟨"w3", 3, 0, 0, 4⟩,
         ⟨"w4", 5, 0, 0, 3⟩]).2 =
      "Engulfing Pattern Found (" ++
        (getCandleDirection ⟨"w4", 5, 0, 0, 3⟩).upper ++ " Signal)" := by
  have h := engulfing_check_characterization
    [⟨"w1", 1, 0, 0, 2⟩, ⟨"w2", 2, 0, 0, 3⟩, ⟨"w3", 3, 0, 0, 4⟩, ⟨"w4", 5, 0, 0, 3⟩]
    ⟨"w4", 5, 0, 0, 3⟩ ⟨"w3", 3, 0, 0, 4⟩ ⟨"w2", 2, 0, 0, 3⟩ ⟨"w1", 1, 0, 0, 2⟩ []
    (by with_unfolding_all rfl)
  have hm : (EngulfingStrategy.check
      [⟨"w1", 1, 0, 0, 2⟩, ⟨"w2", 2, 0, 0, 3⟩, ⟨"w3", 3, 0, 0, 4⟩,
       ⟨"w4", 5, 0, 0, 3⟩]).1 = true :=
    h.1.mpr (by with_unfolding_all decide)
  exact ⟨hm, h.2.1 hm⟩
